import Mathlib

/-!
# Formal model of the Avenir backend core

This file embeds the infrastructure-acquisition pipeline and the lifestyle
scoring engine of the Avenir backend (`app/services/overpass_service.py` and
`app/services/scoring_engine.py`) as Lean definitions and proves properties
about them.

Modelling conventions:
* Python floats on the decimal values used by the scoring engine are modelled
  as rationals (`ℚ`).
* Python `round(x, n)` is modelled by `roundTo n` (round half towards the
  larger integer); on every non-tie value this agrees with Python's rounding.
* Database rows are modelled as records; timestamps are rationals measured in
  hours, so `timedelta(hours=h)` is addition of `h`.
* `async` functions that perform network I/O are modelled as pure functions of
  the sequence of upstream outcomes, one entry per attempt: `none` stands for
  a transport/parse failure of that attempt, `some data` for a well-formed
  JSON response.  A Python function that can raise is modelled with `Except`;
  a total Lean function models a Python function that never raises.
-/

namespace Avenir

/-- Python `round(x, n)`: keep `n` decimal places. -/
def roundTo (n : ℕ) (x : ℚ) : ℚ := (round (x * 10 ^ n) : ℤ) / 10 ^ n

/-- A row of the `infrastructure_data` table: the eight cached facility
counts plus the `last_updated` timestamp (hours, as a rational).  The
surrogate `id`/`area_id` columns play no role in the modelled logic. -/
structure InfrastructureData where
  hospital_count : ℕ
  school_count : ℕ
  bus_stop_count : ℕ
  metro_count : ℕ
  supermarket_count : ℕ
  restaurant_count : ℕ
  gym_count : ℕ
  bar_count : ℕ
  last_updated : ℚ
deriving DecidableEq, Repr

/-- A row of the `user_profiles` table (the fields the scoring engine reads). -/
structure UserProfile where
  marital_status : String
  has_parents : Bool
  employment_status : String
  has_vehicle : Bool
  has_elderly : Bool
  has_children : Bool
deriving DecidableEq, Repr

/-- A mapping from the five scoring categories (transport, healthcare,
education, lifestyle, grocery) to rationals: used both for raw/normalized
score dictionaries and for weight vectors. -/
structure CatMap where
  transport : ℚ
  healthcare : ℚ
  education : ℚ
  lifestyle : ℚ
  grocery : ℚ
deriving DecidableEq, Repr

/-- `DEFAULT_WEIGHTS` from `scoring_engine.py`. -/
def DEFAULT_WEIGHTS : CatMap :=
  { transport := 25/100
    healthcare := 20/100
    education := 20/100
    lifestyle := 20/100
    grocery := 15/100 }

/-- `SCORE_CAPS` from `scoring_engine.py`. -/
def SCORE_CAPS : CatMap :=
  { transport := 100
    healthcare := 80
    education := 60
    lifestyle := 100
    grocery := 40 }

/-- `compute_raw_scores`: fixed linear combinations of the counts. -/
def compute_raw_scores (infra : InfrastructureData) : CatMap :=
  { transport := infra.metro_count * 5 + infra.bus_stop_count * 2
    healthcare := infra.hospital_count * 4
    education := infra.school_count * 3
    lifestyle := infra.restaurant_count * 2
    grocery := infra.supermarket_count * 2 }

/-- One entry of `normalize_scores`:
`round(min((value / cap) * 100, 100) if cap > 0 else 0, 2)`. -/
def normalizeOne (value cap : ℚ) : ℚ :=
  roundTo 2 (if 0 < cap then min ((value / cap) * 100) 100 else 0)

/-- `normalize_scores`: scale every raw score by its cap, clamp to 100. -/
def normalize_scores (raw : CatMap) : CatMap :=
  { transport := normalizeOne raw.transport SCORE_CAPS.transport
    healthcare := normalizeOne raw.healthcare SCORE_CAPS.healthcare
    education := normalizeOne raw.education SCORE_CAPS.education
    lifestyle := normalizeOne raw.lifestyle SCORE_CAPS.lifestyle
    grocery := normalizeOne raw.grocery SCORE_CAPS.grocery }

/-- `if profile.has_parents:` adjustment of `generate_weights`. -/
def stepParents (p : UserProfile) (s : CatMap × List String) : CatMap × List String :=
  if p.has_parents then
    ({ s.1 with healthcare := s.1.healthcare + 10/100 },
     s.2 ++ ["Living with parents → Healthcare weight increased (+0.10)"])
  else s

/-- `if profile.has_elderly:` adjustment of `generate_weights`. -/
def stepElderly (p : UserProfile) (s : CatMap × List String) : CatMap × List String :=
  if p.has_elderly then
    ({ s.1 with healthcare := s.1.healthcare + 12/100 },
     s.2 ++ ["Lives with elderly → Healthcare weight increased (+0.12)"])
  else s

/-- `if profile.has_children:` adjustment of `generate_weights`. -/
def stepChildren (p : UserProfile) (s : CatMap × List String) : CatMap × List String :=
  if p.has_children then
    ({ s.1 with education := s.1.education + 10/100 },
     s.2 ++ ["Has children → Education weight increased (+0.10)"])
  else s

/-- `if profile.has_vehicle:` adjustment of `generate_weights`, including the
floor at 0.05 applied to the decremented transport weight. -/
def stepVehicle (p : UserProfile) (s : CatMap × List String) : CatMap × List String :=
  if p.has_vehicle then
    (let t := s.1.transport - 8/100
     ({ s.1 with transport := if t < 5/100 then 5/100 else t },
      s.2 ++ ["Has vehicle → Transport weight decreased (-0.08)"]))
  else s

/-- The `employment_status` if/elif of `generate_weights`. -/
def stepEmployment (p : UserProfile) (s : CatMap × List String) : CatMap × List String :=
  if p.employment_status = "working" then
    ({ s.1 with transport := s.1.transport + 8/100 },
     s.2 ++ ["Employed (working) → Transport weight increased (+0.08)"])
  else if p.employment_status = "student" then
    ({ s.1 with education := s.1.education + 5/100
                transport := s.1.transport + 3/100 },
     s.2 ++ ["Student → Education weight increased (+0.05), Transport +0.03"])
  else s

/-- The `marital_status` if/elif of `generate_weights`. -/
def stepMarital (p : UserProfile) (s : CatMap × List String) : CatMap × List String :=
  if p.marital_status = "single" then
    ({ s.1 with lifestyle := s.1.lifestyle + 8/100 },
     s.2 ++ ["Single → Lifestyle weight increased (+0.08)"])
  else if p.marital_status = "married" then
    ({ s.1 with education := s.1.education + 8/100
                grocery := s.1.grocery + 4/100 },
     s.2 ++ ["Married → Education weight increased (+0.08), Grocery +0.04"])
  else s

/-- The profile-conditional weight adjustments of `generate_weights`
(lines 91-126 of `scoring_engine.py`), before the final rescale: the six
conditional blocks are applied in source order. -/
def generate_weights_adjusted (p : UserProfile) : CatMap × List String :=
  stepMarital p (stepEmployment p (stepVehicle p (stepChildren p (stepElderly p
    (stepParents p (DEFAULT_WEIGHTS, []))))))

/-- `sum(weights.values())`. -/
def sumW (w : CatMap) : ℚ :=
  w.transport + w.healthcare + w.education + w.lifestyle + w.grocery

/-- The final rescale of `generate_weights`:
`weights = {k: round(v / total, 4) for k, v in weights.items()}` when the
total is positive. -/
def rescaleW (w : CatMap) : CatMap :=
  let total := sumW w
  if 0 < total then
    { transport := roundTo 4 (w.transport / total)
      healthcare := roundTo 4 (w.healthcare / total)
      education := roundTo 4 (w.education / total)
      lifestyle := roundTo 4 (w.lifestyle / total)
      grocery := roundTo 4 (w.grocery / total) }
  else w

/-- `generate_weights`: default weights without a profile, otherwise the
profile-based adjustments followed by the rescale to sum 1. -/
def generate_weights (profile : Option UserProfile) : CatMap × List String :=
  match profile with
  | none => (DEFAULT_WEIGHTS, ["Using default weights (no profile)"])
  | some p =>
    let s := generate_weights_adjusted p
    (rescaleW s.1,
     if s.2 = [] then ["Profile exists but no specific adjustments triggered"] else s.2)

/-- The parts of the result of `compute_final_score` that the model tracks:
the normalized category scores, the weights used, the final score, and the
echoed raw counts. -/
structure ScoreResult where
  category_scores : CatMap
  weights_used : CatMap
  final_score : ℚ
  infrastructure : InfrastructureData
deriving DecidableEq, Repr

/-- `compute_final_score`: raw scores, normalization, weights, then the
weighted sum clamped to 100 and rounded to 2 decimals. -/
def compute_final_score (infra : InfrastructureData) (profile : Option UserProfile) :
    ScoreResult :=
  let raw := compute_raw_scores infra
  let normalized := normalize_scores raw
  let weights := (generate_weights profile).1
  let final :=
    normalized.transport * weights.transport +
    normalized.healthcare * weights.healthcare +
    normalized.education * weights.education +
    normalized.lifestyle * weights.lifestyle +
    normalized.grocery * weights.grocery
  let final := roundTo 2 (min final 100)
  { category_scores := normalized
    weights_used := weights
    final_score := final
    infrastructure := infra }

/-! ### Helper lemmas about rounding -/

theorem roundTo_nonneg (n : ℕ) {x : ℚ} (hx : 0 ≤ x) : 0 ≤ roundTo n x := by
  unfold roundTo
  have h : (0 : ℤ) ≤ round (x * 10 ^ n) := by
    rw [round_eq]
    exact Int.floor_nonneg.mpr (by positivity)
  positivity

theorem roundTo_mono (n : ℕ) {x y : ℚ} (h : x ≤ y) : roundTo n x ≤ roundTo n y := by
  unfold roundTo
  have h10 : (0 : ℚ) < 10 ^ n := by positivity
  have hr : round (x * 10 ^ n) ≤ round (y * 10 ^ n) := by
    rw [round_eq, round_eq]
    exact Int.floor_le_floor (by nlinarith)
  gcongr

theorem abs_roundTo_sub (n : ℕ) (x : ℚ) : |roundTo n x - x| ≤ 1 / (2 * 10 ^ n) := by
  unfold roundTo
  have h10 : (0 : ℚ) < 10 ^ n := by positivity
  have h := abs_sub_round (x * 10 ^ n)
  rw [abs_sub_comm] at h
  have hrw : (round (x * 10 ^ n) : ℚ) / 10 ^ n - x =
      ((round (x * 10 ^ n) : ℚ) - x * 10 ^ n) / 10 ^ n := by
    field_simp
    ring
  rw [hrw, abs_div, abs_of_pos h10, div_le_div_iff h10 (by positivity)]
  nlinarith [mul_le_mul_of_nonneg_right h
    (le_of_lt (show (0:ℚ) < 2 * 10 ^ n by positivity))]

/-! ### Lower bounds on the adjusted (pre-rescale) weight components -/

/-- Invariant preserved by every adjustment step: each component keeps a
positive lower bound (the vehicle rule floors transport at `0.05`). -/
def WBounds (w : CatMap) : Prop :=
  5/100 ≤ w.transport ∧ 15/100 ≤ w.healthcare ∧ 15/100 ≤ w.education ∧
  15/100 ≤ w.lifestyle ∧ 15/100 ≤ w.grocery

theorem wBounds_stepParents (p : UserProfile) (s : CatMap × List String)
    (h : WBounds s.1) : WBounds (stepParents p s).1 := by
  obtain ⟨h1, h2, h3, h4, h5⟩ := h
  unfold stepParents
  split_ifs <;> refine ⟨?_, ?_, ?_, ?_, ?_⟩ <;>
    first
    | linarith
    | (dsimp only; linarith)

theorem wBounds_stepElderly (p : UserProfile) (s : CatMap × List String)
    (h : WBounds s.1) : WBounds (stepElderly p s).1 := by
  obtain ⟨h1, h2, h3, h4, h5⟩ := h
  unfold stepElderly
  split_ifs <;> refine ⟨?_, ?_, ?_, ?_, ?_⟩ <;>
    first
    | linarith
    | (dsimp only; linarith)

theorem wBounds_stepChildren (p : UserProfile) (s : CatMap × List String)
    (h : WBounds s.1) : WBounds (stepChildren p s).1 := by
  obtain ⟨h1, h2, h3, h4, h5⟩ := h
  unfold stepChildren
  split_ifs <;> refine ⟨?_, ?_, ?_, ?_, ?_⟩ <;>
    first
    | linarith
    | (dsimp only; linarith)

theorem wBounds_stepVehicle (p : UserProfile) (s : CatMap × List String)
    (h : WBounds s.1) : WBounds (stepVehicle p s).1 := by
  obtain ⟨h1, h2, h3, h4, h5⟩ := h
  unfold stepVehicle
  dsimp only
  split_ifs <;> refine ⟨?_, ?_, ?_, ?_, ?_⟩ <;>
    first
    | linarith
    | (dsimp only; linarith)

theorem wBounds_stepEmployment (p : UserProfile) (s : CatMap × List String)
    (h : WBounds s.1) : WBounds (stepEmployment p s).1 := by
  obtain ⟨h1, h2, h3, h4, h5⟩ := h
  unfold stepEmployment
  split_ifs <;> refine ⟨?_, ?_, ?_, ?_, ?_⟩ <;>
    first
    | linarith
    | (dsimp only; linarith)

theorem wBounds_stepMarital (p : UserProfile) (s : CatMap × List String)
    (h : WBounds s.1) : WBounds (stepMarital p s).1 := by
  obtain ⟨h1, h2, h3, h4, h5⟩ := h
  unfold stepMarital
  split_ifs <;> refine ⟨?_, ?_, ?_, ?_, ?_⟩ <;>
    first
    | linarith
    | (dsimp only; linarith)

theorem wBounds_adjusted (p : UserProfile) :
    WBounds (generate_weights_adjusted p).1 := by
  unfold generate_weights_adjusted
  apply wBounds_stepMarital
  apply wBounds_stepEmployment
  apply wBounds_stepVehicle
  apply wBounds_stepChildren
  apply wBounds_stepElderly
  apply wBounds_stepParents
  norm_num [WBounds, DEFAULT_WEIGHTS]

/-- Claim C4: for every profile (and for the no-profile case) the weight
vector returned by `generate_weights` has five non-negative components and
their sum is within `1e-3` of `1`. -/
theorem generate_weights_sum_one (profile : Option UserProfile) :
    (0 ≤ (generate_weights profile).1.transport ∧
     0 ≤ (generate_weights profile).1.healthcare ∧
     0 ≤ (generate_weights profile).1.education ∧
     0 ≤ (generate_weights profile).1.lifestyle ∧
     0 ≤ (generate_weights profile).1.grocery) ∧
    |sumW (generate_weights profile).1 - 1| ≤ 1/1000 := by
  match profile with
  | none => norm_num [generate_weights, DEFAULT_WEIGHTS, sumW]
  | some p =>
    obtain ⟨h1, h2, h3, h4, h5⟩ := wBounds_adjusted p
    have hfst : (generate_weights (some p)).1 =
        rescaleW (generate_weights_adjusted p).1 := rfl
    set w := (generate_weights_adjusted p).1 with hwdef
    have ht : 0 < sumW w := by unfold sumW; linarith
    have hres : rescaleW w =
        { transport := roundTo 4 (w.transport / sumW w)
          healthcare := roundTo 4 (w.healthcare / sumW w)
          education := roundTo 4 (w.education / sumW w)
          lifestyle := roundTo 4 (w.lifestyle / sumW w)
          grocery := roundTo 4 (w.grocery / sumW w) } := by
      unfold rescaleW
      dsimp only
      rw [if_pos ht]
    have hdiv : w.transport / sumW w + w.healthcare / sumW w + w.education / sumW w +
        w.lifestyle / sumW w + w.grocery / sumW w = 1 := by
      rw [div_add_div_same, div_add_div_same, div_add_div_same, div_add_div_same]
      exact div_self ht.ne'
    have e1 := abs_le.mp (abs_roundTo_sub 4 (w.transport / sumW w))
    have e2 := abs_le.mp (abs_roundTo_sub 4 (w.healthcare / sumW w))
    have e3 := abs_le.mp (abs_roundTo_sub 4 (w.education / sumW w))
    have e4 := abs_le.mp (abs_roundTo_sub 4 (w.lifestyle / sumW w))
    have e5 := abs_le.mp (abs_roundTo_sub 4 (w.grocery / sumW w))
    rw [hfst, hres]
    refine ⟨⟨?_, ?_, ?_, ?_, ?_⟩, ?_⟩
    · exact roundTo_nonneg 4 (div_nonneg (by linarith) ht.le)
    · exact roundTo_nonneg 4 (div_nonneg (by linarith) ht.le)
    · exact roundTo_nonneg 4 (div_nonneg (by linarith) ht.le)
    · exact roundTo_nonneg 4 (div_nonneg (by linarith) ht.le)
    · exact roundTo_nonneg 4 (div_nonneg (by linarith) ht.le)
    · change |roundTo 4 (w.transport / sumW w) + roundTo 4 (w.healthcare / sumW w) +
        roundTo 4 (w.education / sumW w) + roundTo 4 (w.lifestyle / sumW w) +
        roundTo 4 (w.grocery / sumW w) - 1| ≤ 1/1000
      rw [abs_le]
      obtain ⟨e1a, e1b⟩ := e1
      obtain ⟨e2a, e2b⟩ := e2
      obtain ⟨e3a, e3b⟩ := e3
      obtain ⟨e4a, e4b⟩ := e4
      obtain ⟨e5a, e5b⟩ := e5
      constructor <;> linarith [hdiv]

/-! ### Bounds on normalized category scores -/

theorem normalizeOne_bounds {v cap : ℚ} (hv : 0 ≤ v) (hcap : 0 < cap) :
    0 ≤ normalizeOne v cap ∧ normalizeOne v cap ≤ 100 := by
  unfold normalizeOne
  rw [if_pos hcap]
  constructor
  · exact roundTo_nonneg 2 (le_min (by positivity) (by norm_num))
  · have h := roundTo_mono 2 (min_le_right ((v / cap) * 100) 100)
    have h100 : roundTo 2 (100 : ℚ) = 100 := by
      unfold roundTo
      rw [round_eq]
      norm_num
    rw [h100] at h
    exact h

/-- Claim C5: for every snapshot with (non-negative, by type) integer counts,
each of the five normalized category scores lies in `[0, 100]`; these are
exactly the `category_scores` reported by `compute_final_score`. -/
theorem category_scores_in_range (infra : InfrastructureData)
    (profile : Option UserProfile) :
    (compute_final_score infra profile).category_scores =
      normalize_scores (compute_raw_scores infra) ∧
    (0 ≤ (normalize_scores (compute_raw_scores infra)).transport ∧
      (normalize_scores (compute_raw_scores infra)).transport ≤ 100) ∧
    (0 ≤ (normalize_scores (compute_raw_scores infra)).healthcare ∧
      (normalize_scores (compute_raw_scores infra)).healthcare ≤ 100) ∧
    (0 ≤ (normalize_scores (compute_raw_scores infra)).education ∧
      (normalize_scores (compute_raw_scores infra)).education ≤ 100) ∧
    (0 ≤ (normalize_scores (compute_raw_scores infra)).lifestyle ∧
      (normalize_scores (compute_raw_scores infra)).lifestyle ≤ 100) ∧
    (0 ≤ (normalize_scores (compute_raw_scores infra)).grocery ∧
      (normalize_scores (compute_raw_scores infra)).grocery ≤ 100) := by
  refine ⟨rfl, ?_, ?_, ?_, ?_, ?_⟩
  · exact normalizeOne_bounds
      (show (0:ℚ) ≤ infra.metro_count * 5 + infra.bus_stop_count * 2 by positivity)
      (by norm_num [SCORE_CAPS])
  · exact normalizeOne_bounds
      (show (0:ℚ) ≤ infra.hospital_count * 4 by positivity)
      (by norm_num [SCORE_CAPS])
  · exact normalizeOne_bounds
      (show (0:ℚ) ≤ infra.school_count * 3 by positivity)
      (by norm_num [SCORE_CAPS])
  · exact normalizeOne_bounds
      (show (0:ℚ) ≤ infra.restaurant_count * 2 by positivity)
      (by norm_num [SCORE_CAPS])
  · exact normalizeOne_bounds
      (show (0:ℚ) ≤ infra.supermarket_count * 2 by positivity)
      (by norm_num [SCORE_CAPS])

/-! ### Monotonicity of the final score -/

theorem weights_nonneg (profile : Option UserProfile) :
    0 ≤ (generate_weights profile).1.transport ∧
    0 ≤ (generate_weights profile).1.healthcare ∧
    0 ≤ (generate_weights profile).1.education ∧
    0 ≤ (generate_weights profile).1.lifestyle ∧
    0 ≤ (generate_weights profile).1.grocery := by
  match profile with
  | none => norm_num [generate_weights, DEFAULT_WEIGHTS]
  | some p =>
    obtain ⟨h1, h2, h3, h4, h5⟩ := wBounds_adjusted p
    have hfst : (generate_weights (some p)).1 =
        rescaleW (generate_weights_adjusted p).1 := rfl
    set w := (generate_weights_adjusted p).1 with hwdef
    have ht : 0 < sumW w := by unfold sumW; linarith
    have hres : rescaleW w =
        { transport := roundTo 4 (w.transport / sumW w)
          healthcare := roundTo 4 (w.healthcare / sumW w)
          education := roundTo 4 (w.education / sumW w)
          lifestyle := roundTo 4 (w.lifestyle / sumW w)
          grocery := roundTo 4 (w.grocery / sumW w) } := by
      unfold rescaleW
      dsimp only
      rw [if_pos ht]
    rw [hfst, hres]
    exact ⟨roundTo_nonneg 4 (div_nonneg (by linarith) ht.le),
      roundTo_nonneg 4 (div_nonneg (by linarith) ht.le),
      roundTo_nonneg 4 (div_nonneg (by linarith) ht.le),
      roundTo_nonneg 4 (div_nonneg (by linarith) ht.le),
      roundTo_nonneg 4 (div_nonneg (by linarith) ht.le)⟩

theorem normalizeOne_mono {v v' cap : ℚ} (hcap : 0 < cap) (h : v ≤ v') :
    normalizeOne v cap ≤ normalizeOne v' cap := by
  unfold normalizeOne
  rw [if_pos hcap, if_pos hcap]
  refine roundTo_mono 2 (min_le_min ?_ le_rfl)
  gcongr

theorem final_score_mono (p : Option UserProfile) (i1 i2 : InfrastructureData)
    (ht : (compute_raw_scores i1).transport ≤ (compute_raw_scores i2).transport)
    (hh : (compute_raw_scores i1).healthcare ≤ (compute_raw_scores i2).healthcare)
    (he : (compute_raw_scores i1).education ≤ (compute_raw_scores i2).education)
    (hl : (compute_raw_scores i1).lifestyle ≤ (compute_raw_scores i2).lifestyle)
    (hg : (compute_raw_scores i1).grocery ≤ (compute_raw_scores i2).grocery) :
    (compute_final_score i1 p).final_score ≤ (compute_final_score i2 p).final_score := by
  obtain ⟨w1, w2, w3, w4, w5⟩ := weights_nonneg p
  have hn1 : (normalize_scores (compute_raw_scores i1)).transport ≤
      (normalize_scores (compute_raw_scores i2)).transport :=
    normalizeOne_mono (by norm_num [SCORE_CAPS]) ht
  have hn2 : (normalize_scores (compute_raw_scores i1)).healthcare ≤
      (normalize_scores (compute_raw_scores i2)).healthcare :=
    normalizeOne_mono (by norm_num [SCORE_CAPS]) hh
  have hn3 : (normalize_scores (compute_raw_scores i1)).education ≤
      (normalize_scores (compute_raw_scores i2)).education :=
    normalizeOne_mono (by norm_num [SCORE_CAPS]) he
  have hn4 : (normalize_scores (compute_raw_scores i1)).lifestyle ≤
      (normalize_scores (compute_raw_scores i2)).lifestyle :=
    normalizeOne_mono (by norm_num [SCORE_CAPS]) hl
  have hn5 : (normalize_scores (compute_raw_scores i1)).grocery ≤
      (normalize_scores (compute_raw_scores i2)).grocery :=
    normalizeOne_mono (by norm_num [SCORE_CAPS]) hg
  set n1 := normalize_scores (compute_raw_scores i1) with hn1def
  set n2 := normalize_scores (compute_raw_scores i2) with hn2def
  set wv := (generate_weights p).1 with hwvdef
  change roundTo 2 (min (n1.transport * wv.transport + n1.healthcare * wv.healthcare +
    n1.education * wv.education + n1.lifestyle * wv.lifestyle + n1.grocery * wv.grocery) 100) ≤
    roundTo 2 (min (n2.transport * wv.transport + n2.healthcare * wv.healthcare +
      n2.education * wv.education + n2.lifestyle * wv.lifestyle + n2.grocery * wv.grocery) 100)
  refine roundTo_mono 2 (min_le_min ?_ le_rfl)
  have m1 := mul_le_mul_of_nonneg_right hn1 w1
  have m2 := mul_le_mul_of_nonneg_right hn2 w2
  have m3 := mul_le_mul_of_nonneg_right hn3 w3
  have m4 := mul_le_mul_of_nonneg_right hn4 w4
  have m5 := mul_le_mul_of_nonneg_right hn5 w5
  linarith

/-- Claim C6: with the profile and all other counts held fixed, the final
score of `compute_final_score` is monotonically non-decreasing in each of the
six facility counts that feed a category formula (metro, bus stop, hospital,
school, restaurant, supermarket). -/
theorem final_score_monotone_in_counts (p : Option UserProfile)
    (infra : InfrastructureData) (c c' : ℕ) (hcc : c ≤ c') :
    (compute_final_score { infra with metro_count := c } p).final_score ≤
      (compute_final_score { infra with metro_count := c' } p).final_score ∧
    (compute_final_score { infra with bus_stop_count := c } p).final_score ≤
      (compute_final_score { infra with bus_stop_count := c' } p).final_score ∧
    (compute_final_score { infra with hospital_count := c } p).final_score ≤
      (compute_final_score { infra with hospital_count := c' } p).final_score ∧
    (compute_final_score { infra with school_count := c } p).final_score ≤
      (compute_final_score { infra with school_count := c' } p).final_score ∧
    (compute_final_score { infra with restaurant_count := c } p).final_score ≤
      (compute_final_score { infra with restaurant_count := c' } p).final_score ∧
    (compute_final_score { infra with supermarket_count := c } p).final_score ≤
      (compute_final_score { infra with supermarket_count := c' } p).final_score := by
  have hc : (c : ℚ) ≤ (c' : ℚ) := Nat.cast_le.mpr hcc
  refine ⟨?_, ?_, ?_, ?_, ?_, ?_⟩ <;>
    apply final_score_mono <;>
    first
    | exact le_rfl
    | (dsimp only [compute_raw_scores]; linarith)

/-- Witness for claim C6: raising the metro count from 1 to 2 on a concrete
snapshot does not decrease the final score (and likewise for the other five
counts). -/
theorem final_score_monotone_in_counts_witness :
    (compute_final_score ⟨1, 3, 10, 1, 2, 5, 0, 0, 0⟩ none).final_score ≤
      (compute_final_score ⟨1, 3, 10, 2, 2, 5, 0, 0, 0⟩ none).final_score :=
  (final_score_monotone_in_counts none ⟨1, 3, 10, 0, 2, 5, 0, 0, 0⟩ 1 2
    (by norm_num)).1

/-- The concrete snapshot of the spec scenario:
metro 2, bus 10, hospital 1, school 3, restaurant 5, supermarket 2. -/
def scenarioSnapshot : InfrastructureData :=
  { hospital_count := 1, school_count := 3, bus_stop_count := 10, metro_count := 2,
    supermarket_count := 2, restaurant_count := 5, gym_count := 0, bar_count := 0,
    last_updated := 0 }

/-- Claim C7: on the scenario snapshot with no profile the engine yields
normalized scores transport 30, healthcare 5, education 15, lifestyle 10,
grocery 10, uses the default weights (.25, .20, .20, .20, .15), and the
final score is 15. -/
theorem scenario_no_profile_score :
    (compute_final_score scenarioSnapshot none).category_scores =
      { transport := 30, healthcare := 5, education := 15, lifestyle := 10, grocery := 10 } ∧
    (compute_final_score scenarioSnapshot none).weights_used = DEFAULT_WEIGHTS ∧
    DEFAULT_WEIGHTS =
      { transport := 25/100, healthcare := 20/100, education := 20/100,
        lifestyle := 20/100, grocery := 15/100 } ∧
    (compute_final_score scenarioSnapshot none).final_score = 15 := by
  refine ⟨?_, ?_, ?_, ?_⟩ <;>
    simp [compute_final_score, compute_raw_scores, normalize_scores, normalizeOne,
      generate_weights, DEFAULT_WEIGHTS, SCORE_CAPS, scenarioSnapshot, roundTo,
      round_eq, CatMap.mk.injEq] <;>
    norm_num

/-! ### The weight-adjustment rules as an unordered rule set

The six conditional blocks of `generate_weights` split into eight elementary
rules (one per condition branch).  `applyRules` applies a list of rules in
the given order, with the floor on the vehicle rule exactly as in the source;
`applyRulesNF` is the same but with the floor removed (pure addition of a
delta vector), which is the counterfactual the spec asks about. -/

inductive WRule where
  | parents
  | elderly
  | children
  | vehicle
  | working
  | student
  | single
  | married
deriving DecidableEq, Repr

/-- The rules in the order the source applies them. -/
def weightRules : List WRule :=
  [.parents, .elderly, .children, .vehicle, .working, .student, .single, .married]

inductive EmpTag where
  | working
  | student
  | otherEmp
deriving DecidableEq, Repr

inductive MarTag where
  | single
  | married
  | otherMar
deriving DecidableEq, Repr

/-- The part of a profile that `generate_weights` actually inspects. -/
structure CoreProfile where
  has_parents : Bool
  has_elderly : Bool
  has_children : Bool
  has_vehicle : Bool
  emp : EmpTag
  mar : MarTag
deriving DecidableEq, Repr

def empTag (s : String) : EmpTag :=
  if s = "working" then .working else if s = "student" then .student else .otherEmp

def marTag (s : String) : MarTag :=
  if s = "single" then .single else if s = "married" then .married else .otherMar

def coreOf (p : UserProfile) : CoreProfile :=
  { has_parents := p.has_parents
    has_elderly := p.has_elderly
    has_children := p.has_children
    has_vehicle := p.has_vehicle
    emp := empTag p.employment_status
    mar := marTag p.marital_status }

def ruleActive (c : CoreProfile) : WRule → Bool
  | .parents => c.has_parents
  | .elderly => c.has_elderly
  | .children => c.has_children
  | .vehicle => c.has_vehicle
  | .working => match c.emp with | .working => true | _ => false
  | .student => match c.emp with | .student => true | _ => false
  | .single => match c.mar with | .single => true | _ => false
  | .married => match c.mar with | .married => true | _ => false

/-- The additive effect of each rule on the weight vector (transport,
healthcare, education, lifestyle, grocery). -/
def ruleDelta : WRule → CatMap
  | .parents => ⟨0, 10/100, 0, 0, 0⟩
  | .elderly => ⟨0, 12/100, 0, 0, 0⟩
  | .children => ⟨0, 0, 10/100, 0, 0⟩
  | .vehicle => ⟨-(8/100), 0, 0, 0, 0⟩
  | .working => ⟨8/100, 0, 0, 0, 0⟩
  | .student => ⟨3/100, 0, 5/100, 0, 0⟩
  | .single => ⟨0, 0, 0, 8/100, 0⟩
  | .married => ⟨0, 0, 8/100, 0, 4/100⟩

def addC (w d : CatMap) : CatMap :=
  ⟨w.transport + d.transport, w.healthcare + d.healthcare, w.education + d.education,
   w.lifestyle + d.lifestyle, w.grocery + d.grocery⟩

/-- One rule applied as the source applies it (vehicle carries the floor). -/
def applyRule (w : CatMap) : WRule → CatMap
  | .vehicle =>
    let t := w.transport - 8/100
    { w with transport := if t < 5/100 then 5/100 else t }
  | r => addC w (ruleDelta r)

def applyRules (c : CoreProfile) (l : List WRule) (w : CatMap) : CatMap :=
  l.foldl (fun w r => if ruleActive c r then applyRule w r else w) w

/-- One rule applied with the transport floor removed. -/
def applyRuleNF (w : CatMap) (r : WRule) : CatMap := addC w (ruleDelta r)

def applyRulesNF (c : CoreProfile) (l : List WRule) (w : CatMap) : CatMap :=
  l.foldl (fun w r => if ruleActive c r then applyRuleNF w r else w) w

theorem addC_rightComm (w d1 d2 : CatMap) :
    addC (addC w d1) d2 = addC (addC w d2) d1 := by
  simp only [addC, CatMap.mk.injEq]
  refine ⟨by ring, by ring, by ring, by ring, by ring⟩

theorem stepNF_rcomm (c : CoreProfile) (b : CatMap) (a1 a2 : WRule) :
    (fun w r => if ruleActive c r then applyRuleNF w r else w)
      ((fun w r => if ruleActive c r then applyRuleNF w r else w) b a1) a2 =
    (fun w r => if ruleActive c r then applyRuleNF w r else w)
      ((fun w r => if ruleActive c r then applyRuleNF w r else w) b a2) a1 := by
  dsimp only
  cases h1 : ruleActive c a1 <;> cases h2 : ruleActive c a2 <;>
    simp [h1, h2, applyRuleNF, addC_rightComm b (ruleDelta a1) (ruleDelta a2)]

theorem foldl_rcomm_perm {α β : Type} (f : β → α → β)
    (hf : ∀ b a1 a2, f (f b a1) a2 = f (f b a2) a1)
    {l1 l2 : List α} (h : l1.Perm l2) : ∀ b, l1.foldl f b = l2.foldl f b := by
  induction h with
  | nil => intro b; rfl
  | cons x h ih =>
    intro b
    simp only [List.foldl_cons]
    exact ih (f b x)
  | swap x y l =>
    intro b
    simp only [List.foldl_cons]
    rw [hf]
  | trans h1 h2 ih1 ih2 =>
    intro b
    exact (ih1 b).trans (ih2 b)

/-- On any duplicate-free rule list, as long as transport starts at `0.13`
or more whenever the vehicle rule is still pending, the floored application
agrees with the floorless one: the floor at `0.05` never fires. -/
theorem applyRules_eq_NF (c : CoreProfile) :
    ∀ l : List WRule, l.Nodup → ∀ w : CatMap,
      (WRule.vehicle ∈ l → 13/100 ≤ w.transport) →
      applyRules c l w = applyRulesNF c l w := by
  intro l
  induction l with
  | nil =>
    intro _ w _
    rfl
  | cons r t ih =>
    intro hnd w hmem
    obtain ⟨hr, htnd⟩ := List.nodup_cons.mp hnd
    have hstep : (if ruleActive c r then applyRule w r else w) =
        (if ruleActive c r then applyRuleNF w r else w) := by
      cases hact : ruleActive c r
      · simp
      · rw [if_pos rfl, if_pos rfl]
        cases r with
        | vehicle =>
          have htr : 13/100 ≤ w.transport := hmem (List.mem_cons_self _ _)
          unfold applyRule applyRuleNF ruleDelta addC
          dsimp only
          rw [if_neg (by linarith)]
          simp only [CatMap.mk.injEq]
          refine ⟨by ring, by ring, by ring, by ring, by ring⟩
        | parents => rfl
        | elderly => rfl
        | children => rfl
        | working => rfl
        | student => rfl
        | single => rfl
        | married => rfl
    have hnext : WRule.vehicle ∈ t →
        13/100 ≤ (if ruleActive c r then applyRuleNF w r else w).transport := by
      intro hv
      have htr : 13/100 ≤ w.transport := hmem (List.mem_cons.mpr (Or.inr hv))
      cases hact : ruleActive c r
      · simpa using htr
      · rw [if_pos rfl]
        cases r with
        | vehicle => exact absurd hv hr
        | parents => simp [applyRuleNF, addC, ruleDelta]; linarith
        | elderly => simp [applyRuleNF, addC, ruleDelta]; linarith
        | children => simp [applyRuleNF, addC, ruleDelta]; linarith
        | working => simp [applyRuleNF, addC, ruleDelta]; linarith
        | student => simp [applyRuleNF, addC, ruleDelta]; linarith
        | single => simp [applyRuleNF, addC, ruleDelta]; linarith
        | married => simp [applyRuleNF, addC, ruleDelta]; linarith
    show List.foldl _ (if ruleActive c r then applyRule w r else w) t =
      List.foldl _ (if ruleActive c r then applyRuleNF w r else w) t
    rw [hstep]
    exact ih htnd _ hnext

theorem gw_parents (p : UserProfile) (w : CatMap) :
    (if ruleActive (coreOf p) WRule.parents then applyRule w .parents else w) =
      if p.has_parents then { w with healthcare := w.healthcare + 10/100 } else w := by
  cases h : p.has_parents <;> simp [ruleActive, coreOf, h, applyRule, addC, ruleDelta]

theorem gw_elderly (p : UserProfile) (w : CatMap) :
    (if ruleActive (coreOf p) WRule.elderly then applyRule w .elderly else w) =
      if p.has_elderly then { w with healthcare := w.healthcare + 12/100 } else w := by
  cases h : p.has_elderly <;> simp [ruleActive, coreOf, h, applyRule, addC, ruleDelta]

theorem gw_children (p : UserProfile) (w : CatMap) :
    (if ruleActive (coreOf p) WRule.children then applyRule w .children else w) =
      if p.has_children then { w with education := w.education + 10/100 } else w := by
  cases h : p.has_children <;> simp [ruleActive, coreOf, h, applyRule, addC, ruleDelta]

theorem gw_vehicle (p : UserProfile) (w : CatMap) :
    (if ruleActive (coreOf p) WRule.vehicle then applyRule w .vehicle else w) =
      if p.has_vehicle then
        { w with transport :=
            if w.transport - 8/100 < 5/100 then 5/100 else w.transport - 8/100 }
      else w := by
  cases h : p.has_vehicle <;> simp [ruleActive, coreOf, h, applyRule]

theorem gw_employment (p : UserProfile) (w : CatMap) :
    (if ruleActive (coreOf p) WRule.student then
        applyRule (if ruleActive (coreOf p) WRule.working then applyRule w .working else w)
          .student
      else (if ruleActive (coreOf p) WRule.working then applyRule w .working else w)) =
      if p.employment_status = "working" then
        { w with transport := w.transport + 8/100 }
      else if p.employment_status = "student" then
        { w with education := w.education + 5/100
                 transport := w.transport + 3/100 }
      else w := by
  by_cases hw : p.employment_status = "working" <;>
    by_cases hs : p.employment_status = "student" <;>
    first
    | exact absurd (hw.symm.trans hs) (by decide)
    | simp [ruleActive, coreOf, empTag, hw, hs, applyRule, addC, ruleDelta]

theorem gw_marital (p : UserProfile) (w : CatMap) :
    (if ruleActive (coreOf p) WRule.married then
        applyRule (if ruleActive (coreOf p) WRule.single then applyRule w .single else w)
          .married
      else (if ruleActive (coreOf p) WRule.single then applyRule w .single else w)) =
      if p.marital_status = "single" then
        { w with lifestyle := w.lifestyle + 8/100 }
      else if p.marital_status = "married" then
        { w with education := w.education + 8/100
                 grocery := w.grocery + 4/100 }
      else w := by
  by_cases h1 : p.marital_status = "single" <;>
    by_cases h2 : p.marital_status = "married" <;>
    first
    | exact absurd (h1.symm.trans h2) (by decide)
    | simp [ruleActive, coreOf, marTag, h1, h2, applyRule, addC, ruleDelta]

theorem stepParents_fst (p : UserProfile) (s : CatMap × List String) :
    (stepParents p s).1 =
      if p.has_parents then { s.1 with healthcare := s.1.healthcare + 10/100 }
      else s.1 := by
  cases h : p.has_parents <;> simp [stepParents, h]

theorem stepElderly_fst (p : UserProfile) (s : CatMap × List String) :
    (stepElderly p s).1 =
      if p.has_elderly then { s.1 with healthcare := s.1.healthcare + 12/100 }
      else s.1 := by
  cases h : p.has_elderly <;> simp [stepElderly, h]

theorem stepChildren_fst (p : UserProfile) (s : CatMap × List String) :
    (stepChildren p s).1 =
      if p.has_children then { s.1 with education := s.1.education + 10/100 }
      else s.1 := by
  cases h : p.has_children <;> simp [stepChildren, h]

theorem stepVehicle_fst (p : UserProfile) (s : CatMap × List String) :
    (stepVehicle p s).1 =
      if p.has_vehicle then
        { s.1 with transport :=
            if s.1.transport - 8/100 < 5/100 then 5/100 else s.1.transport - 8/100 }
      else s.1 := by
  cases h : p.has_vehicle <;> simp [stepVehicle, h]

theorem stepEmployment_fst (p : UserProfile) (s : CatMap × List String) :
    (stepEmployment p s).1 =
      if p.employment_status = "working" then
        { s.1 with transport := s.1.transport + 8/100 }
      else if p.employment_status = "student" then
        { s.1 with education := s.1.education + 5/100
                   transport := s.1.transport + 3/100 }
      else s.1 := by
  by_cases hw : p.employment_status = "working" <;>
    by_cases hs : p.employment_status = "student" <;>
    simp [stepEmployment, hw, hs]

theorem stepMarital_fst (p : UserProfile) (s : CatMap × List String) :
    (stepMarital p s).1 =
      if p.marital_status = "single" then
        { s.1 with lifestyle := s.1.lifestyle + 8/100 }
      else if p.marital_status = "married" then
        { s.1 with education := s.1.education + 8/100
                   grocery := s.1.grocery + 4/100 }
      else s.1 := by
  by_cases h1 : p.marital_status = "single" <;>
    by_cases h2 : p.marital_status = "married" <;>
    simp [stepMarital, h1, h2]

/-- Applying the eight rules in source order reproduces exactly the
pre-rescale weight vector computed by `generate_weights`. -/
theorem applyRules_canonical (p : UserProfile) :
    applyRules (coreOf p) weightRules DEFAULT_WEIGHTS =
      (generate_weights_adjusted p).1 := by
  unfold applyRules weightRules generate_weights_adjusted
  simp only [List.foldl_cons, List.foldl_nil]
  rw [gw_parents, gw_elderly, gw_children, gw_vehicle, gw_employment, gw_marital,
    stepMarital_fst, stepEmployment_fst, stepVehicle_fst, stepChildren_fst,
    stepElderly_fst, stepParents_fst]

/-- Without the floor, the transport weight still never drops below `0.17`:
the only decrement is `0.08` from a base of `0.25`. -/
theorem NF_transport_ge (c : CoreProfile) :
    17/100 ≤ (applyRulesNF c weightRules DEFAULT_WEIGHTS).transport := by
  unfold applyRulesNF weightRules applyRuleNF
  simp only [List.foldl_cons, List.foldl_nil]
  simp only [apply_ite CatMap.transport, addC, ruleDelta, DEFAULT_WEIGHTS,
    add_zero, ite_self]
  split_ifs <;> norm_num

/-- Claim C8 (amended): the net effect of the weight-adjustment rules is the
same for every application order, with no exception for the transport floor
(the floor never fires), and no profile can drive the transport weight below
zero even with the floor removed: it always stays at or above `0.17`. -/
theorem weight_rules_order_independent :
    (∀ (p : UserProfile) (l : List WRule), l.Perm weightRules →
        applyRules (coreOf p) l DEFAULT_WEIGHTS = (generate_weights_adjusted p).1) ∧
    (∀ p : UserProfile,
        17/100 ≤ (applyRulesNF (coreOf p) weightRules DEFAULT_WEIGHTS).transport) := by
  constructor
  · intro p l hperm
    have hnd : l.Nodup := hperm.nodup_iff.mpr (by decide)
    have h13 : WRule.vehicle ∈ l → 13/100 ≤ DEFAULT_WEIGHTS.transport := by
      intro _
      norm_num [DEFAULT_WEIGHTS]
    rw [applyRules_eq_NF (coreOf p) l hnd DEFAULT_WEIGHTS h13]
    have hp2 : applyRulesNF (coreOf p) l DEFAULT_WEIGHTS =
        applyRulesNF (coreOf p) weightRules DEFAULT_WEIGHTS :=
      foldl_rcomm_perm _ (stepNF_rcomm (coreOf p)) hperm DEFAULT_WEIGHTS
    rw [hp2, ← applyRules_eq_NF (coreOf p) weightRules (by decide) DEFAULT_WEIGHTS
      (by intro _; norm_num [DEFAULT_WEIGHTS])]
    exact applyRules_canonical p
  · intro p
    exact NF_transport_ge (coreOf p)

/-- Claim C8, counterexample to the claim as stated: there is no profile for
which the transport weight would fall below zero if the floor were absent. -/
theorem no_profile_drives_transport_negative :
    ¬ ∃ c : CoreProfile,
      (applyRulesNF c weightRules DEFAULT_WEIGHTS).transport < 0 := by
  rintro ⟨c, hc⟩
  have h := NF_transport_ge c
  linarith

/-- Witness for claim C8: a concrete profile and a concrete non-source order
of the rules (the reversed list). -/
theorem weight_rules_order_independent_witness :
    applyRules (coreOf ⟨"single", true, "working", true, false, false⟩)
        weightRules.reverse DEFAULT_WEIGHTS =
      (generate_weights_adjusted ⟨"single", true, "working", true, false, false⟩).1 ∧
    17/100 ≤ (applyRulesNF (coreOf ⟨"single", true, "working", true, false, false⟩)
        weightRules DEFAULT_WEIGHTS).transport :=
  ⟨weight_rules_order_independent.1 _ _ (List.reverse_perm weightRules),
   weight_rules_order_independent.2 _⟩

/-! ## The Overpass service, count mode

`fetch_from_overpass` is modelled as a pure function of the list of attempt
outcomes (one per retry): `none` is a transport/parse failure of the attempt
(any exception inside the `try` block), `some elements` is a successfully
decoded JSON body.  Endpoint rotation and radius escalation only change which
request is sent, not the control flow, so they do not appear in the model. -/

/-- The eight facility counts returned by the count-mode fetch (the dict
built by `parse_overpass_counts`). -/
structure Counts where
  hospital_count : ℕ
  school_count : ℕ
  bus_stop_count : ℕ
  metro_count : ℕ
  supermarket_count : ℕ
  restaurant_count : ℕ
  gym_count : ℕ
  bar_count : ℕ
deriving DecidableEq, Repr

/-- The all-zero count dictionary used as the fallback value. -/
def zeroCounts : Counts := ⟨0, 0, 0, 0, 0, 0, 0, 0⟩

/-- One element of a count-mode Overpass response: its `type` tag and the
numeric value of `tags.total` (`int(el.get("tags", {}).get("total", 0))`,
so a missing tag is already the default `0`). -/
structure OElement where
  type : String
  total : ℕ
deriving DecidableEq, Repr

/-- `parse_overpass_counts`: collect the totals of the `count`-typed elements
in order, pad with zeros up to eight, and read off the eight categories. -/
def parse_overpass_counts (elements : List OElement) : Counts :=
  let counts := (elements.filter fun el => el.type = "count").map fun el => el.total
  { hospital_count := counts.getD 0 0
    school_count := counts.getD 1 0
    bus_stop_count := counts.getD 2 0
    metro_count := counts.getD 3 0
    supermarket_count := counts.getD 4 0
    restaurant_count := counts.getD 5 0
    gym_count := counts.getD 6 0
    bar_count := counts.getD 7 0 }

/-- `sum(counts.values())`. -/
def Counts.total (c : Counts) : ℕ :=
  c.hospital_count + c.school_count + c.bus_stop_count + c.metro_count +
    c.supermarket_count + c.restaurant_count + c.gym_count + c.bar_count

/-- The retry loop of `fetch_from_overpass`, carrying the `last_counts`
accumulator: a well-formed response with positive total returns immediately;
a zero-total response is remembered and retried; a failed attempt backfills
the accumulator with zeros if it is still empty.  After the last attempt the
remembered counts (or zeros) are returned. -/
def fetchLoop : List (Option (List OElement)) → Option Counts → Counts
  | [], last => last.getD zeroCounts
  | o :: rest, last =>
    match o with
    | some elements =>
      let counts := parse_overpass_counts elements
      if 0 < counts.total then counts
      else fetchLoop rest (some counts)
    | none => fetchLoop rest (some (last.getD zeroCounts))

/-- `fetch_from_overpass`, as a function of the attempt outcomes.  It is a
total function: the Python function catches every per-attempt exception and
never raises to its caller. -/
def fetch_from_overpass (outcomes : List (Option (List OElement))) : Counts :=
  fetchLoop outcomes none

theorem fetchLoop_all_none :
    ∀ (outcomes : List (Option (List OElement))), (∀ o ∈ outcomes, o = none) →
      ∀ last, fetchLoop outcomes last = last.getD zeroCounts := by
  intro outcomes
  induction outcomes with
  | nil =>
    intro _ last
    rfl
  | cons o rest ih =>
    intro h last
    have ho : o = none := h o (List.mem_cons_self _ _)
    subst ho
    have hrest : ∀ o ∈ rest, o = none := fun o ho => h o (List.mem_cons.mpr (Or.inr ho))
    show fetchLoop rest (some (last.getD zeroCounts)) = last.getD zeroCounts
    rw [ih hrest]
    rfl

theorem fetchLoop_cases :
    ∀ (outcomes : List (Option (List OElement))) (last : Option Counts),
      fetchLoop outcomes last = zeroCounts ∨
      (∃ elements, (some elements) ∈ outcomes ∧
        fetchLoop outcomes last = parse_overpass_counts elements) ∨
      (∃ c, last = some c ∧ fetchLoop outcomes last = c) := by
  intro outcomes
  induction outcomes with
  | nil =>
    intro last
    match last with
    | none => exact Or.inl rfl
    | some c => exact Or.inr (Or.inr ⟨c, rfl, rfl⟩)
  | cons o rest ih =>
    intro last
    match o with
    | some elements =>
      rw [show fetchLoop (some elements :: rest) last =
          (if 0 < (parse_overpass_counts elements).total then parse_overpass_counts elements
           else fetchLoop rest (some (parse_overpass_counts elements))) from rfl]
      by_cases hpos : 0 < (parse_overpass_counts elements).total
      · rw [if_pos hpos]
        exact Or.inr (Or.inl ⟨elements, List.mem_cons_self _ _, rfl⟩)
      · rw [if_neg hpos]
        rcases ih (some (parse_overpass_counts elements)) with h | ⟨e, he, hv⟩ | ⟨c, hc, hv⟩
        · exact Or.inl h
        · exact Or.inr (Or.inl ⟨e, List.mem_cons.mpr (Or.inr he), hv⟩)
        · refine Or.inr (Or.inl ⟨elements, List.mem_cons_self _ _, ?_⟩)
          rw [hv]
          exact (Option.some.inj hc).symm
    | none =>
      rw [show fetchLoop (none :: rest) last =
          fetchLoop rest (some (last.getD zeroCounts)) from rfl]
      rcases ih (some (last.getD zeroCounts)) with h | ⟨e, he, hv⟩ | ⟨c, hc, hv⟩
      · exact Or.inl h
      · exact Or.inr (Or.inl ⟨e, List.mem_cons.mpr (Or.inr he), hv⟩)
      · have hc2 := Option.some.inj hc
        match last with
        | none =>
          refine Or.inl ?_
          rw [hv, ← hc2]
          rfl
        | some c0 =>
          refine Or.inr (Or.inr ⟨c0, rfl, ?_⟩)
          rw [hv, ← hc2]
          rfl

/-- Claim C3: for every sequence of upstream outcomes the count-mode fetch
returns a value (it never raises, being a total function): either the parsed
counts of one of the well-formed responses, or the all-zero dictionary; and
if every attempt fails it returns exactly the all-zero dictionary. -/
theorem fetch_never_fails (outcomes : List (Option (List OElement))) :
    ((∀ o ∈ outcomes, o = none) → fetch_from_overpass outcomes = zeroCounts) ∧
    ((∃ elements, (some elements) ∈ outcomes ∧
        fetch_from_overpass outcomes = parse_overpass_counts elements) ∨
      fetch_from_overpass outcomes = zeroCounts) := by
  constructor
  · intro h
    exact fetchLoop_all_none outcomes h none
  · rcases fetchLoop_cases outcomes none with h | ⟨e, he, hv⟩ | ⟨c, hc, _⟩
    · exact Or.inr h
    · exact Or.inl ⟨e, he, hv⟩
    · cases hc

/-- Witness for claim C3: three failed attempts yield the all-zero counts. -/
theorem fetch_never_fails_witness :
    fetch_from_overpass [none, none, none] = zeroCounts :=
  (fetch_never_fails [none, none, none]).1 (by simp)

/-! ## The cache store: `get_infrastructure_for_area`

The database row for the area is the `stored` argument (`None` when no
snapshot exists); `now` is `datetime.now(timezone.utc)` in hours.  The result
carries the returned snapshot (which is also the snapshot persisted by the
commit, in every path) and the number of `fetch_from_overpass` invocations
performed, so that cache hits are distinguishable from refreshes.  The
`fetchOutcome` argument is the outcome of `await fetch_from_overpass`:
`Except.error` would be a raised exception, which feeds the `except` branch
of the source. -/

/-- `settings.CACHE_TTL_HOURS` (default 24). -/
def CACHE_TTL_HOURS : ℚ := 24

/-- The write-back of fresh counts: all eight count columns are overwritten
and `last_updated` is set to `now` (both the update path for an existing row
and the creation path for a missing row produce this row). -/
def writeBack (c : Counts) (now : ℚ) : InfrastructureData :=
  { hospital_count := c.hospital_count
    school_count := c.school_count
    bus_stop_count := c.bus_stop_count
    metro_count := c.metro_count
    supermarket_count := c.supermarket_count
    restaurant_count := c.restaurant_count
    gym_count := c.gym_count
    bar_count := c.bar_count
    last_updated := now }

/-- `get_infrastructure_for_area`: return the cached row when it exists, no
force-refresh is requested and `now < last_updated + TTL`; otherwise fetch.
A raised fetch error falls back to the stale row (if any) or to an all-zero
row stamped `now`.  The second component counts fetch invocations. -/
def get_infrastructure_for_area (stored : Option InfrastructureData) (now : ℚ)
    (force_refresh : Bool) (fetchOutcome : Except Unit Counts) :
    InfrastructureData × ℕ :=
  match stored with
  | some infra =>
    if force_refresh = false ∧ now < infra.last_updated + CACHE_TTL_HOURS then
      (infra, 0)
    else
      match fetchOutcome with
      | Except.ok counts => (writeBack counts now, 1)
      | Except.error _ => (infra, 1)
  | none =>
    match fetchOutcome with
    | Except.ok counts => (writeBack counts now, 1)
    | Except.error _ => (writeBack zeroCounts now, 1)

/-- The composition actually executed by the service: since
`fetch_from_overpass` is total (it never raises), the fetch outcome passed to
the cache logic is always `Except.ok` of the fetched counts. -/
def get_infrastructure_composed (stored : Option InfrastructureData) (now : ℚ)
    (force_refresh : Bool) (outcomes : List (Option (List OElement))) :
    InfrastructureData × ℕ :=
  get_infrastructure_for_area stored now force_refresh
    (Except.ok (fetch_from_overpass outcomes))

/-- Claim C2: with a stored snapshot and no force-refresh, a call inside the
TTL returns the stored snapshot unchanged with zero fetch invocations, and a
call at or past the TTL expiry performs exactly one fetch invocation. -/
theorem cache_hit_zero_fetches_stale_one_fetch :
    (∀ (s : InfrastructureData) (now : ℚ) (fo : Except Unit Counts),
      now < s.last_updated + CACHE_TTL_HOURS →
      get_infrastructure_for_area (some s) now false fo = (s, 0)) ∧
    (∀ (s : InfrastructureData) (now : ℚ) (fo : Except Unit Counts),
      ¬ now < s.last_updated + CACHE_TTL_HOURS →
      (get_infrastructure_for_area (some s) now false fo).2 = 1) := by
  constructor
  · intro s now fo h
    unfold get_infrastructure_for_area
    dsimp only
    rw [if_pos ⟨rfl, h⟩]
  · intro s now fo h
    unfold get_infrastructure_for_area
    dsimp only
    rw [if_neg (by intro hc; exact h hc.2)]
    match fo with
    | Except.ok counts => rfl
    | Except.error e => rfl

/-- Witness for claim C2: a concrete snapshot stamped at hour 0 is returned
unchanged at hour 1 with no fetch, and triggers exactly one fetch at hour
30. -/
theorem cache_hit_zero_fetches_stale_one_fetch_witness :
    get_infrastructure_for_area (some ⟨1, 2, 3, 4, 5, 6, 7, 8, 0⟩) 1 false
        (Except.ok zeroCounts) = (⟨1, 2, 3, 4, 5, 6, 7, 8, 0⟩, 0) ∧
    (get_infrastructure_for_area (some ⟨1, 2, 3, 4, 5, 6, 7, 8, 0⟩) 30 false
        (Except.ok zeroCounts)).2 = 1 :=
  ⟨cache_hit_zero_fetches_stale_one_fetch.1 _ _ _ (by norm_num [CACHE_TTL_HOURS]),
   cache_hit_zero_fetches_stale_one_fetch.2 _ _ _ (by norm_num [CACHE_TTL_HOURS])⟩

/-- Claim C1, counterexample: an area with a stored snapshot (counts
5,4,3,2,1,6,7,8 at hour 0) is refreshed at hour 100 while every upstream
attempt fails; the service returns the all-zero snapshot stamped 100 — the
stale snapshot's counts and `last_updated` are NOT preserved (though no
error is raised). -/
theorem stale_snapshot_overwritten_on_total_failure :
    (get_infrastructure_composed (some ⟨5, 4, 3, 2, 1, 6, 7, 8, 0⟩) 100 false
        [none, none, none]).1 = writeBack zeroCounts 100 ∧
    writeBack zeroCounts 100 ≠ (⟨5, 4, 3, 2, 1, 6, 7, 8, 0⟩ : InfrastructureData) := by
  constructor
  · have hf : fetch_from_overpass [none, none, none] = zeroCounts :=
      fetchLoop_all_none [none, none, none] (by simp) none
    unfold get_infrastructure_composed get_infrastructure_for_area
    dsimp only
    rw [hf, if_neg (by intro hc; norm_num [CACHE_TTL_HOURS] at hc)]
  · intro h
    have := congrArg InfrastructureData.hospital_count h
    simp [writeBack, zeroCounts] at this

/-- Claim C1 (amended): when every upstream attempt fails and the cache
decides to refresh (stale snapshot or force-refresh), the count fetcher
returns all-zero counts without raising, so `get_infrastructure_for_area`
overwrites the existing snapshot: it returns (and persists) a snapshot with
all eight counts zero and `last_updated = now`, performing one fetch; no
error is raised to the caller.  The stale-cache fallback branch is reached
only on a raised fetch error, which the total fetcher never produces. -/
theorem total_failure_overwrites_with_zeros (s : InfrastructureData) (now : ℚ)
    (force_refresh : Bool) (outcomes : List (Option (List OElement)))
    (hfail : ∀ o ∈ outcomes, o = none)
    (hrefresh : force_refresh = true ∨ s.last_updated + CACHE_TTL_HOURS ≤ now) :
    get_infrastructure_composed (some s) now force_refresh outcomes =
      (writeBack zeroCounts now, 1) := by
  have hf : fetch_from_overpass outcomes = zeroCounts :=
    fetchLoop_all_none outcomes hfail none
  unfold get_infrastructure_composed get_infrastructure_for_area
  dsimp only
  rw [hf, if_neg ?_]
  rintro ⟨hforce, hfresh⟩
  rcases hrefresh with h | h
  · rw [h] at hforce
    cases hforce
  · exact absurd hfresh (not_lt.mpr h)

/-- Witness for claim C1 (amended): the concrete refresh of the
counterexample input indeed yields the zero snapshot stamped `now = 100`. -/
theorem total_failure_overwrites_with_zeros_witness :
    get_infrastructure_composed (some ⟨5, 4, 3, 2, 1, 6, 7, 8, 0⟩) 100 false
        [none, none, none] = (writeBack zeroCounts 100, 1) :=
  total_failure_overwrites_with_zeros ⟨5, 4, 3, 2, 1, 6, 7, 8, 0⟩ 100 false
    [none, none, none] (by simp) (Or.inr (by norm_num [CACHE_TTL_HOURS]))

/-! ## The Overpass service, location mode

`fetch_facility_locations` requests all categories with `out center` and
splits the flat element list into eight contiguous blocks of size
`len(elements) // 8` (the last block absorbs the remainder).  For each
element of a block, a way uses its `center` (skipped when absent) and any
other element reads `el['lat']`/`el['lon']` directly — a `KeyError` there
aborts the attempt.  Duplicate coordinates (rounded to 6 decimals) within a
category are dropped, first seen wins. -/

/-- One element of a location-mode response: `type`, optional own
coordinates, optional `center` (for ways), and the optional `tags.name`. -/
structure LElement where
  type : String
  lat : Option ℚ
  lon : Option ℚ
  center : Option (ℚ × ℚ)
  name : Option String
deriving DecidableEq, Repr

/-- A `FacilityLocation` record (name, coordinate, category tag). -/
structure FacilityLocation where
  name : Option String
  lat : ℚ
  lon : ℚ
  type : String
deriving DecidableEq, Repr

/-- The per-category lists returned by `fetch_facility_locations`, in the
fixed category order of `cats`. -/
structure Cats where
  hospitals : List FacilityLocation
  schools : List FacilityLocation
  bus_stops : List FacilityLocation
  metro_stations : List FacilityLocation
  supermarkets : List FacilityLocation
  restaurants : List FacilityLocation
  gyms : List FacilityLocation
  bars : List FacilityLocation
deriving DecidableEq, Repr

/-- `max_per_category` default. -/
def max_per_category : ℕ := 50

/-- `cat_keys = list(cats.keys())`. -/
def cat_keys : List String :=
  ["hospitals", "schools", "bus_stops", "metro_stations", "supermarkets",
   "restaurants", "gyms", "bars"]

/-- Block `i` of the flat element list: `elements[start:end]` with
`start = i * block_size`, `end = (i+1) * block_size` for the first seven
blocks and `len(elements)` for the last, where
`block_size = len(elements) // 8`. -/
def blockFor (elements : List LElement) (i : ℕ) : List LElement :=
  let block_size := elements.length / cat_keys.length
  let start := i * block_size
  let stop := if i + 1 < cat_keys.length then (i + 1) * block_size else elements.length
  (elements.take stop).drop start

/-- Coordinate resolution for one element: a way uses its `center` (`none`
means the element is skipped), anything else reads `el['lat']`/`el['lon']`
and raises `KeyError` when either is missing. -/
def resolveCoord (el : LElement) : Except Unit (Option (ℚ × ℚ)) :=
  if el.type = "way" then
    match el.center with
    | none => Except.ok none
    | some c => Except.ok (some c)
  else
    match el.lat, el.lon with
    | some la, some lo => Except.ok (some (la, lo))
    | _, _ => Except.error ()

/-- The `for el in block[:max_per_category]` loop body for one category. -/
def processList (cat : String) : List LElement → Except Unit (List FacilityLocation)
  | [] => Except.ok []
  | el :: rest =>
    match resolveCoord el with
    | Except.error e => Except.error e
    | Except.ok none => processList cat rest
    | Except.ok (some (la, lo)) =>
      match processList cat rest with
      | Except.error e => Except.error e
      | Except.ok fs => Except.ok ({ name := el.name, lat := la, lon := lo, type := cat } :: fs)

def processBlock (cat : String) (maxPer : ℕ) (block : List LElement) :
    Except Unit (List FacilityLocation) :=
  processList cat (block.take maxPer)

/-- The dedup pass: drop a record whose coordinate, rounded to 6 decimals,
was already seen in this category (first seen wins). -/
def dedupAux (seen : List (ℚ × ℚ)) : List FacilityLocation → List FacilityLocation
  | [] => []
  | f :: rest =>
    let key := (roundTo 6 f.lat, roundTo 6 f.lon)
    if key ∈ seen then dedupAux seen rest
    else f :: dedupAux (key :: seen) rest

def dedup (l : List FacilityLocation) : List FacilityLocation := dedupAux [] l

/-- Processing of one decoded location-mode response: split into the eight
blocks, process each in category order (any `KeyError` aborts the whole
attempt at the first offending category), then dedup each category. -/
def processElements (maxPer : ℕ) (elements : List LElement) : Except Unit Cats :=
  match processBlock "hospitals" maxPer (blockFor elements 0) with
  | Except.error e => Except.error e
  | Except.ok hospitals =>
  match processBlock "schools" maxPer (blockFor elements 1) with
  | Except.error e => Except.error e
  | Except.ok schools =>
  match processBlock "bus_stops" maxPer (blockFor elements 2) with
  | Except.error e => Except.error e
  | Except.ok bus_stops =>
  match processBlock "metro_stations" maxPer (blockFor elements 3) with
  | Except.error e => Except.error e
  | Except.ok metro_stations =>
  match processBlock "supermarkets" maxPer (blockFor elements 4) with
  | Except.error e => Except.error e
  | Except.ok supermarkets =>
  match processBlock "restaurants" maxPer (blockFor elements 5) with
  | Except.error e => Except.error e
  | Except.ok restaurants =>
  match processBlock "gyms" maxPer (blockFor elements 6) with
  | Except.error e => Except.error e
  | Except.ok gyms =>
  match processBlock "bars" maxPer (blockFor elements 7) with
  | Except.error e => Except.error e
  | Except.ok bars =>
  Except.ok
    { hospitals := dedup hospitals
      schools := dedup schools
      bus_stops := dedup bus_stops
      metro_stations := dedup metro_stations
      supermarkets := dedup supermarkets
      restaurants := dedup restaurants
      gyms := dedup gyms
      bars := dedup bars }

/-- `fetch_facility_locations` as a function of the attempt outcomes: a
transport failure or a processing error moves to the next attempt; when all
attempts are exhausted the last error is raised (`Except.error`). -/
def fetch_facility_locations : List (Option (List LElement)) → Except Unit Cats
  | [] => Except.error ()
  | o :: rest =>
    match o with
    | none => fetch_facility_locations rest
    | some elements =>
      match processElements max_per_category elements with
      | Except.ok cats => Except.ok cats
      | Except.error _ => fetch_facility_locations rest

/-! ### Lemmas about location-mode processing -/

theorem processList_ok (cat : String) :
    ∀ l : List LElement,
      (∀ el ∈ l, el.type ≠ "way" → el.lat.isSome ∧ el.lon.isSome) →
      ∃ fs, processList cat l = Except.ok fs := by
  intro l
  induction l with
  | nil =>
    intro _
    exact ⟨[], rfl⟩
  | cons el rest ih =>
    intro h
    have hrest := fun e he => h e (List.mem_cons.mpr (Or.inr he))
    have hres : ∃ co, resolveCoord el = Except.ok co := by
      unfold resolveCoord
      by_cases hw : el.type = "way"
      · rw [if_pos hw]
        rcases el.center with _ | c
        · exact ⟨none, rfl⟩
        · exact ⟨some c, rfl⟩
      · rw [if_neg hw]
        obtain ⟨hla, hlo⟩ := h el (List.mem_cons_self _ _) hw
        obtain ⟨la, hla2⟩ := Option.isSome_iff_exists.mp hla
        obtain ⟨lo, hlo2⟩ := Option.isSome_iff_exists.mp hlo
        rw [hla2, hlo2]
        exact ⟨some (la, lo), rfl⟩
    obtain ⟨co, hco⟩ := hres
    obtain ⟨fs, hfs⟩ := ih hrest
    unfold processList
    rw [hco]
    match co with
    | none => exact ⟨fs, hfs⟩
    | some (la, lo) =>
      rw [hfs]
      exact ⟨_, rfl⟩

theorem processList_sound (cat : String) :
    ∀ (l : List LElement) (fs : List FacilityLocation),
      processList cat l = Except.ok fs →
      ∀ f ∈ fs, ∃ el ∈ l, resolveCoord el = Except.ok (some (f.lat, f.lon)) := by
  intro l
  induction l with
  | nil =>
    intro fs hfs f hf
    have : fs = [] := by
      have h2 : Except.ok ([] : List FacilityLocation) = Except.ok fs := hfs
      exact (Except.ok.inj h2).symm
    subst this
    cases hf
  | cons el rest ih =>
    intro fs hfs f hf
    unfold processList at hfs
    cases hco : resolveCoord el with
    | error e =>
      rw [hco] at hfs
      cases hfs
    | ok co =>
      rw [hco] at hfs
      match co with
      | none =>
        obtain ⟨e2, he2, hre⟩ := ih fs hfs f hf
        exact ⟨e2, List.mem_cons.mpr (Or.inr he2), hre⟩
      | some (la, lo) =>
        cases hrest : processList cat rest with
        | error e =>
          rw [hrest] at hfs
          cases hfs
        | ok fs2 =>
          rw [hrest] at hfs
          have : ({ name := el.name, lat := la, lon := lo, type := cat } :
              FacilityLocation) :: fs2 = fs := Except.ok.inj hfs
          subst this
          rcases List.mem_cons.mp hf with hfe | hftl
          · subst hfe
            exact ⟨el, List.mem_cons_self _ _, hco⟩
          · obtain ⟨e2, he2, hre⟩ := ih fs2 hrest f hftl
            exact ⟨e2, List.mem_cons.mpr (Or.inr he2), hre⟩

theorem dedupAux_subset :
    ∀ (l : List FacilityLocation) (seen : List (ℚ × ℚ)) (f : FacilityLocation),
      f ∈ dedupAux seen l → f ∈ l := by
  intro l
  induction l with
  | nil =>
    intro seen f hf
    cases hf
  | cons g rest ih =>
    intro seen f hf
    unfold dedupAux at hf
    by_cases hk : ((roundTo 6 g.lat, roundTo 6 g.lon) : ℚ × ℚ) ∈ seen
    · rw [if_pos hk] at hf
      exact List.mem_cons.mpr (Or.inr (ih seen f hf))
    · rw [if_neg hk] at hf
      rcases List.mem_cons.mp hf with hfe | hftl
      · exact List.mem_cons.mpr (Or.inl hfe)
      · exact List.mem_cons.mpr (Or.inr (ih _ f hftl))

theorem blockFor_subset (elements : List LElement) (i : ℕ) :
    ∀ el ∈ blockFor elements i, el ∈ elements := by
  intro el hel
  unfold blockFor at hel
  exact List.take_subset _ _ (List.drop_subset _ _ hel)

theorem processBlock_ok (cat : String) (block : List LElement)
    (h : ∀ el ∈ block, el.type ≠ "way" → el.lat.isSome ∧ el.lon.isSome) :
    ∃ fs, processBlock cat max_per_category block = Except.ok fs :=
  processList_ok cat (block.take max_per_category)
    (fun el hel => h el (List.take_subset _ _ hel))

theorem processBlock_sound (cat : String) (block : List LElement)
    (fs : List FacilityLocation)
    (hfs : processBlock cat max_per_category block = Except.ok fs) :
    ∀ f ∈ dedup fs, ∃ el ∈ block, resolveCoord el = Except.ok (some (f.lat, f.lon)) := by
  intro f hf
  obtain ⟨el, hel, hre⟩ :=
    processList_sound cat (block.take max_per_category) fs hfs f
      (dedupAux_subset fs [] f hf)
  exact ⟨el, List.take_subset _ _ hel, hre⟩

/-- Claim C9 (amended): way elements without a `center` are silently dropped
and never cause the location fetch to fail — whenever all NON-way elements
carry their own coordinates, processing succeeds, and every record in the
output carries a coordinate resolved from some element (a centerless way
resolves to a skip, so it contributes no record).  For a non-way element
missing `lat`/`lon` the attempt instead raises `KeyError` (see the
counterexample), so the claim's universal form fails. -/
theorem way_without_center_dropped (elements : List LElement)
    (hcoords : ∀ el ∈ elements, el.type ≠ "way" → el.lat.isSome ∧ el.lon.isSome) :
    (∃ cats, processElements max_per_category elements = Except.ok cats) ∧
    (∀ cats, processElements max_per_category elements = Except.ok cats →
      ∀ f ∈ cats.hospitals ++ cats.schools ++ cats.bus_stops ++ cats.metro_stations ++
          cats.supermarkets ++ cats.restaurants ++ cats.gyms ++ cats.bars,
        ∃ el ∈ elements, resolveCoord el = Except.ok (some (f.lat, f.lon))) := by
  have hblk : ∀ i : ℕ, ∀ el ∈ blockFor elements i, el.type ≠ "way" →
      el.lat.isSome ∧ el.lon.isSome :=
    fun i el hel => hcoords el (blockFor_subset elements i el hel)
  obtain ⟨fs0, h0⟩ := processBlock_ok "hospitals" (blockFor elements 0) (hblk 0)
  obtain ⟨fs1, h1⟩ := processBlock_ok "schools" (blockFor elements 1) (hblk 1)
  obtain ⟨fs2, h2⟩ := processBlock_ok "bus_stops" (blockFor elements 2) (hblk 2)
  obtain ⟨fs3, h3⟩ := processBlock_ok "metro_stations" (blockFor elements 3) (hblk 3)
  obtain ⟨fs4, h4⟩ := processBlock_ok "supermarkets" (blockFor elements 4) (hblk 4)
  obtain ⟨fs5, h5⟩ := processBlock_ok "restaurants" (blockFor elements 5) (hblk 5)
  obtain ⟨fs6, h6⟩ := processBlock_ok "gyms" (blockFor elements 6) (hblk 6)
  obtain ⟨fs7, h7⟩ := processBlock_ok "bars" (blockFor elements 7) (hblk 7)
  have hpe : processElements max_per_category elements =
      Except.ok ⟨dedup fs0, dedup fs1, dedup fs2, dedup fs3, dedup fs4, dedup fs5,
        dedup fs6, dedup fs7⟩ := by
    unfold processElements
    rw [h0, h1, h2, h3, h4, h5, h6, h7]
  refine ⟨⟨_, hpe⟩, ?_⟩
  intro cats hcats f hf
  rw [hpe] at hcats
  have hceq : (⟨dedup fs0, dedup fs1, dedup fs2, dedup fs3, dedup fs4, dedup fs5,
      dedup fs6, dedup fs7⟩ : Cats) = cats := Except.ok.inj hcats
  subst hceq
  simp only [List.mem_append] at hf
  rcases hf with ((((((hf | hf) | hf) | hf) | hf) | hf) | hf) | hf
  · obtain ⟨el, hel, hre⟩ := processBlock_sound "hospitals" _ _ h0 f hf
    exact ⟨el, blockFor_subset elements 0 el hel, hre⟩
  · obtain ⟨el, hel, hre⟩ := processBlock_sound "schools" _ _ h1 f hf
    exact ⟨el, blockFor_subset elements 1 el hel, hre⟩
  · obtain ⟨el, hel, hre⟩ := processBlock_sound "bus_stops" _ _ h2 f hf
    exact ⟨el, blockFor_subset elements 2 el hel, hre⟩
  · obtain ⟨el, hel, hre⟩ := processBlock_sound "metro_stations" _ _ h3 f hf
    exact ⟨el, blockFor_subset elements 3 el hel, hre⟩
  · obtain ⟨el, hel, hre⟩ := processBlock_sound "supermarkets" _ _ h4 f hf
    exact ⟨el, blockFor_subset elements 4 el hel, hre⟩
  · obtain ⟨el, hel, hre⟩ := processBlock_sound "restaurants" _ _ h5 f hf
    exact ⟨el, blockFor_subset elements 5 el hel, hre⟩
  · obtain ⟨el, hel, hre⟩ := processBlock_sound "gyms" _ _ h6 f hf
    exact ⟨el, blockFor_subset elements 6 el hel, hre⟩
  · obtain ⟨el, hel, hre⟩ := processBlock_sound "bars" _ _ h7 f hf
    exact ⟨el, blockFor_subset elements 7 el hel, hre⟩

/-- Claim C9, counterexample to the claim as stated: a single non-way
element without coordinates makes every attempt raise `KeyError`, so the
location fetch raises to its caller instead of dropping the element. -/
theorem node_without_coordinates_raises :
    fetch_facility_locations
        [some [⟨"node", none, none, none, none⟩],
         some [⟨"node", none, none, none, none⟩],
         some [⟨"node", none, none, none, none⟩]] = Except.error () := by
  rfl

/-- Witness for claim C9 (amended): a single way element without a `center`
is processed without failure. -/
theorem way_without_center_dropped_witness :
    ∃ cats, processElements max_per_category [⟨"way", none, none, none, none⟩] =
      Except.ok cats :=
  (way_without_center_dropped [⟨"way", none, none, none, none⟩]
    (by
      rintro el hel hw
      simp only [List.mem_singleton] at hel
      subst hel
      exact absurd rfl hw)).1

/-- Claim C10: when the location-mode response has fewer than 8 elements the
block size `len(elements) // 8` is 0, so the seven leading category blocks
are empty, the whole list lands in the final (bars) block, and any
successfully processed result has empty lists for the seven leading
categories. -/
theorem small_response_lands_in_bars (elements : List LElement)
    (hlen : elements.length < 8) :
    (∀ i : ℕ, i < 7 → blockFor elements i = []) ∧
    blockFor elements 7 = elements ∧
    (∀ cats, processElements max_per_category elements = Except.ok cats →
      cats.hospitals = [] ∧ cats.schools = [] ∧ cats.bus_stops = [] ∧
      cats.metro_stations = [] ∧ cats.supermarkets = [] ∧ cats.restaurants = [] ∧
      cats.gyms = []) := by
  have hck : cat_keys.length = 8 := rfl
  have hbs : elements.length / cat_keys.length = 0 := by
    rw [hck]
    exact Nat.div_eq_of_lt hlen
  have hblocks : ∀ i : ℕ, i < 7 → blockFor elements i = [] := by
    intro i hi
    unfold blockFor
    dsimp only
    rw [hbs, if_pos (show i + 1 < cat_keys.length by rw [hck]; omega)]
    simp
  have hbars : blockFor elements 7 = elements := by
    unfold blockFor
    dsimp only
    rw [hbs, if_neg (show ¬ 7 + 1 < cat_keys.length by rw [hck]; omega)]
    simp
  refine ⟨hblocks, hbars, ?_⟩
  intro cats hcats
  have h0 : processBlock "hospitals" max_per_category (blockFor elements 0) =
      Except.ok [] := by rw [hblocks 0 (by omega)]; rfl
  have h1 : processBlock "schools" max_per_category (blockFor elements 1) =
      Except.ok [] := by rw [hblocks 1 (by omega)]; rfl
  have h2 : processBlock "bus_stops" max_per_category (blockFor elements 2) =
      Except.ok [] := by rw [hblocks 2 (by omega)]; rfl
  have h3 : processBlock "metro_stations" max_per_category (blockFor elements 3) =
      Except.ok [] := by rw [hblocks 3 (by omega)]; rfl
  have h4 : processBlock "supermarkets" max_per_category (blockFor elements 4) =
      Except.ok [] := by rw [hblocks 4 (by omega)]; rfl
  have h5 : processBlock "restaurants" max_per_category (blockFor elements 5) =
      Except.ok [] := by rw [hblocks 5 (by omega)]; rfl
  have h6 : processBlock "gyms" max_per_category (blockFor elements 6) =
      Except.ok [] := by rw [hblocks 6 (by omega)]; rfl
  unfold processElements at hcats
  rw [h0, h1, h2, h3, h4, h5, h6] at hcats
  dsimp only at hcats
  cases hb : processBlock "bars" max_per_category (blockFor elements 7) with
  | error e =>
    rw [hb] at hcats
    cases hcats
  | ok bars =>
    rw [hb] at hcats
    have hceq := Except.ok.inj hcats
    subst hceq
    exact ⟨rfl, rfl, rfl, rfl, rfl, rfl, rfl⟩

/-- Witness for claim C10: a three-element response is attributed wholly to
the bars block, with the first block empty. -/
theorem small_response_lands_in_bars_witness :
    blockFor [⟨"node", some 1, some 2, none, none⟩, ⟨"node", some 3, some 4, none, none⟩,
        ⟨"node", some 5, some 6, none, none⟩] 7 =
      [⟨"node", some 1, some 2, none, none⟩, ⟨"node", some 3, some 4, none, none⟩,
        ⟨"node", some 5, some 6, none, none⟩] ∧
    blockFor [⟨"node", some 1, some 2, none, none⟩, ⟨"node", some 3, some 4, none, none⟩,
        ⟨"node", some 5, some 6, none, none⟩] 0 = [] :=
  ⟨(small_response_lands_in_bars _ (by simp)).2.1,
   (small_response_lands_in_bars _ (by simp)).1 0 (by omega)⟩

end Avenir
